import Mathlib

/-!
Shallow embedding of the storage layer of the Murazaki/dendrite repository:

* `syncapi/storage/mysql/stream_id_table.go` — the global stream position
  counter (`nextStreamID`).
* `syncapi/storage/mysql/output_room_events_table.go` — the sync API output
  log (`InsertEvent`, `SelectStateInRange`, `SelectRecentEvents`,
  `SelectEarlyEvents`).
* `roomserver/storage/mysql/rooms_table.go` — the rooms table
  (`InsertRoomNID`, `SelectRoomNID`, `UpdateLatestEventNIDs`).
* the sqlite3 state snapshot table (`insertState`,
  `bulkSelectStateBlockNIDs`).

A SQL table is modelled as a Lean structure holding the list of its rows
together with the auto-increment counter where the schema has one.  A SQL
`SELECT ... ORDER BY` is modelled as a filter of the row list followed by
`List.insertionSort` (a stable sort, matching both the SQL ordering and Go's
`sort.SliceStable`), and `LIMIT n` as `List.take n`.  Machine integers
(BIGINT columns) are modelled as `Nat`; none of the verified operations can
overflow-wrap in a way a claim depends on.  Columns that no verified
operation reads (the headered JSON payload, `contains_url`) are elided;
the `room_id`/`event_id`/`type`/`sender` columns, which `InsertEvent` copies
out of the headered event, are modelled as plain strings.
-/

namespace Dendrite

/-! ### syncapi: stream_id_table.go -/

/-- State of the `syncapi_stream_id` table for the single `"global"` stream
name: the current value of its `stream_id` column (schema default 0). -/
structure StreamIDState where
  streamID : Nat
deriving DecidableEq, Repr

/-- `nextStreamID` (stream_id_table.go): executes
`UPDATE syncapi_stream_id SET stream_id = stream_id + 1 WHERE stream_name = $1`
and then `SELECT stream_id ...`, returning the updated state together with
the freshly read position. -/
def nextStreamID (s : StreamIDState) : StreamIDState × Nat :=
  (⟨s.streamID + 1⟩, s.streamID + 1)

/-- The list of positions handed out by `n` successive `nextStreamID` calls
starting from state `s` (each call runs inside its own transaction holding
the counter row). -/
def nextStreamIDs (s : StreamIDState) : Nat → List Nat
  | 0 => []
  | n + 1 =>
    let (s', pos) := nextStreamID s
    pos :: nextStreamIDs s' n

/-! ### syncapi: output_room_events_table.go -/

/-- The fields of a `gomatrixserverlib.HeaderedEvent` that
`InsertEvent` reads (`EventID()`, `RoomID()`, `Type()`, `Sender()`). -/
structure HeaderedEvent where
  eventID : String
  roomID : String
  eventType : String
  sender : String
deriving DecidableEq, Repr

/-- `api.TransactionID` (roomserver/api): client session id plus the
transaction id used to send the event. -/
structure TransactionID where
  sessionID : Int
  transactionID : String
deriving DecidableEq, Repr

/-- A row of the `syncapi_output_room_events` table.  `addStateIDs` and
`removeStateIDs` model the `add_state_ids`/`remove_state_ids` columns with
`[]` standing for an absent delta. -/
structure OutputRoomEventRow where
  id : Nat
  eventID : String
  roomID : String
  eventType : String
  sender : String
  addStateIDs : List String
  removeStateIDs : List String
  sessionID : Option Int
  transactionID : Option String
  excludeFromSync : Bool
deriving DecidableEq, Repr

/-- Combined state of the sync API storage: the output log rows and the
stream-ID counter used by `InsertEvent` via `streamIDStatements`. -/
structure SyncAPIState where
  rows : List OutputRoomEventRow
  streamID : StreamIDState
deriving DecidableEq, Repr

/-- `InsertEvent` (output_room_events_table.go): allocates the next stream
position with `nextStreamID`, then executes `insertEventSQL`, i.e.
`INSERT INTO syncapi_output_room_events (...) VALUES (...) ON CONFLICT ON
CONSTRAINT syncapi_event_id_idx DO UPDATE SET exclude_from_sync = $13`.
On an `event_id` conflict only the `exclude_from_sync` column of the
existing row is updated; the returned position is in every case the value
just obtained from `nextStreamID`. -/
def insertEvent (s : SyncAPIState) (event : HeaderedEvent)
    (addState removeState : List String) (txnID : Option TransactionID)
    (excludeFromSync : Bool) : SyncAPIState × Nat :=
  let (streamID', streamPos) := nextStreamID s.streamID
  let rows' :=
    if s.rows.any (fun r => r.eventID == event.eventID) then
      s.rows.map (fun r =>
        if r.eventID == event.eventID then
          { r with excludeFromSync := excludeFromSync }
        else r)
    else
      s.rows ++ [{ id := streamPos
                   eventID := event.eventID
                   roomID := event.roomID
                   eventType := event.eventType
                   sender := event.sender
                   addStateIDs := addState
                   removeStateIDs := removeState
                   sessionID := txnID.map (·.sessionID)
                   transactionID := txnID.map (·.transactionID)
                   excludeFromSync := excludeFromSync }]
  ({ rows := rows', streamID := streamID' }, streamPos)

/-- Row order used by ascending `ORDER BY id` clauses and by the
`sort.SliceStable` calls comparing `StreamPosition`s. -/
def posLe (a b : OutputRoomEventRow) : Prop :=
  a.id ≤ b.id

/-- Row order used by `ORDER BY id DESC`. -/
def posGe (a b : OutputRoomEventRow) : Prop :=
  b.id ≤ a.id

/-- Strict version of `posLe`: rows in strictly increasing position order. -/
def posLt (a b : OutputRoomEventRow) : Prop :=
  a.id < b.id

instance : DecidableRel posLe := fun a b =>
  inferInstanceAs (Decidable (a.id ≤ b.id))

instance : DecidableRel posGe := fun a b =>
  inferInstanceAs (Decidable (b.id ≤ a.id))

instance : DecidableRel posLt := fun a b =>
  inferInstanceAs (Decidable (a.id < b.id))

instance : IsTotal OutputRoomEventRow posLe :=
  ⟨fun a b => Nat.le_total a.id b.id⟩

instance : IsTrans OutputRoomEventRow posLe :=
  ⟨fun _ _ _ => Nat.le_trans⟩

instance : IsTotal OutputRoomEventRow posGe :=
  ⟨fun a b => Nat.le_total b.id a.id⟩

instance : IsTrans OutputRoomEventRow posGe :=
  ⟨fun _ _ _ h h' => Nat.le_trans h' h⟩

instance : IsTrans OutputRoomEventRow posLt :=
  ⟨fun _ _ _ => Nat.lt_trans⟩

instance : IsAntisymm OutputRoomEventRow posLt :=
  ⟨fun _ _ h h' => absurd (Nat.lt_trans h h') (Nat.lt_irrefl _)⟩

/-- `SelectRecentEvents` (output_room_events_table.go): executes
`selectRecentEventsSQL` (or `selectRecentEventsForSyncSQL` when
`onlySyncEvents`, which additionally requires `exclude_from_sync = FALSE`),
i.e. the rows of the given room with `r.Low() < id ≤ r.High()`, ordered by
`id DESC`, first `limit` of them; then, when `chronologicalOrder`, re-sorts
the slice by ascending `StreamPosition` with `sort.SliceStable`. -/
def selectRecentEvents (tbl : List OutputRoomEventRow) (roomID : String)
    (low high : Nat) (limit : Nat) (chronologicalOrder onlySyncEvents : Bool) :
    List OutputRoomEventRow :=
  let scanned :=
    (List.insertionSort posGe (tbl.filter (fun r =>
      r.roomID == roomID && low < r.id && r.id ≤ high &&
        (!onlySyncEvents || !r.excludeFromSync)))).take limit
  if chronologicalOrder then List.insertionSort posLe scanned else scanned

/-- `SelectEarlyEvents` (output_room_events_table.go): executes
`selectEarlyEventsSQL` — the rows of the given room with
`r.Low() < id ≤ r.High()`, ordered by `id ASC`, first `limit` of them — and
then unconditionally re-sorts the slice by ascending `StreamPosition` with
`sort.SliceStable`. -/
def selectEarlyEvents (tbl : List OutputRoomEventRow) (roomID : String)
    (low high : Nat) (limit : Nat) : List OutputRoomEventRow :=
  List.insertionSort posLe
    ((List.insertionSort posLe (tbl.filter (fun r =>
      r.roomID == roomID && low < r.id && r.id ≤ high))).take limit)

/-- The rows scanned by `SelectStateInRange` (`selectStateInRangeSQL`): the
rows with `r.Low() < id ≤ r.High()`, ordered by `id ASC`, first `limit` of
them.  The SQL also has `add_state_ids IS NOT NULL OR remove_state_ids IS
NOT NULL`, but `InsertEvent` always binds the JSON text of the two state-ID
slices (`"null"` or `"[]"` when there is no delta), never SQL NULL, so that
clause matches every row in range and the `LIMIT` counts no-delta rows
too. -/
def selectStateInRangeRows (tbl : List OutputRoomEventRow)
    (low high : Nat) (limit : Nat) : List OutputRoomEventRow :=
  (List.insertionSort posLe (tbl.filter (fun r =>
    low < r.id && r.id ≤ high))).take limit

/-- The loop body of `SelectStateInRange` acting on one room's `needSet`
(lines 210–216 of output_room_events_table.go): first every id of
`removeStateIDs` is written `false`, then every id of `addStateIDs` is
written `true`.  The Go `map[string]bool` is modelled as
`String → Option Bool`, `none` standing for an absent key. -/
def applyStateEntry (needSet : String → Option Bool)
    (e : OutputRoomEventRow) : String → Option Bool :=
  let afterDel := e.removeStateIDs.foldl
    (fun m i => Function.update m i (some false)) needSet
  e.addStateIDs.foldl (fun m i => Function.update m i (some true)) afterDel

/-- One iteration of the row loop of `SelectStateInRange`: fetch the
`needSet` of the row's room (an empty map if absent), apply the row's
removes then adds, and store it back under the room ID. -/
def stateInRangeStep (acc : String → String → Option Bool)
    (e : OutputRoomEventRow) : String → String → Option Bool :=
  Function.update acc e.roomID (applyStateEntry (acc e.roomID) e)

/-- `SelectStateInRange` (output_room_events_table.go), restricted to its
first result: the per-room cumulative needed-state map built by folding
`stateInRangeStep` over the scanned rows in ascending `id` order.
An event ID is "needed" for a room exactly when it maps to `some true`. -/
def selectStateInRange (tbl : List OutputRoomEventRow)
    (low high : Nat) (limit : Nat) : String → String → Option Bool :=
  (selectStateInRangeRows tbl low high limit).foldl stateInRangeStep
    (fun _ _ => none)

/-! ### roomserver: rooms_table.go -/

/-- A row of the `roomserver_rooms` table.  `latest_event_nids` is stored as
a JSON text column defaulting to `'[]'`; it is modelled as the list it
encodes. -/
structure RoomRow where
  roomNID : Nat
  roomID : String
  latestEventNIDs : List Nat
  lastEventSentNID : Nat
  stateSnapshotNID : Nat
  roomVersion : String
deriving DecidableEq, Repr

/-- State of the `roomserver_rooms` table: its rows plus the
`AUTO_INCREMENT` counter backing the `room_nid` primary key. -/
structure RoomsState where
  nextRoomNID : Nat
  rows : List RoomRow
deriving DecidableEq, Repr

/-- `SelectRoomNID` (rooms_table.go): `SELECT room_nid FROM roomserver_rooms
WHERE room_id = $1`; `none` models `sql.ErrNoRows`. -/
def selectRoomNID (s : RoomsState) (roomID : String) : Option Nat :=
  (s.rows.find? (fun r => r.roomID == roomID)).map (·.roomNID)

/-- `InsertRoomNID` (rooms_table.go): executes `insertRoomNIDSQL` —
`INSERT INTO roomserver_rooms (room_id, room_version) VALUES ($1, $2) ON
CONFLICT DO NOTHING` (the other columns take their schema defaults) — and,
when the insert statement itself succeeds, returns `SelectRoomNID` of the
same room ID. -/
def insertRoomNID (s : RoomsState) (roomID : String) (roomVersion : String) :
    RoomsState × Option Nat :=
  let s' :=
    if s.rows.any (fun r => r.roomID == roomID) then s
    else
      { nextRoomNID := s.nextRoomNID + 1
        rows := s.rows ++ [{ roomNID := s.nextRoomNID
                             roomID := roomID
                             latestEventNIDs := []
                             lastEventSentNID := 0
                             stateSnapshotNID := 0
                             roomVersion := roomVersion }] }
  (s', selectRoomNID s' roomID)

/-- `UpdateLatestEventNIDs` (rooms_table.go): `UPDATE roomserver_rooms SET
latest_event_nids = $2, last_event_sent_nid = $3, state_snapshot_nid = $4
WHERE room_nid = $1`. -/
def updateLatestEventNIDs (s : RoomsState) (roomNID : Nat)
    (eventNIDs : List Nat) (lastEventSentNID : Nat)
    (stateSnapshotNID : Nat) : RoomsState :=
  { s with
    rows := s.rows.map (fun r =>
      if r.roomNID == roomNID then
        { r with
          latestEventNIDs := eventNIDs
          lastEventSentNID := lastEventSentNID
          stateSnapshotNID := stateSnapshotNID }
      else r) }

/-! ### sqlite3 state snapshot table (src/unnamed/part_001) -/

/-- A row of the `roomserver_state_snapshots` table. -/
structure StateSnapshotRow where
  stateSnapshotNID : Nat
  roomNID : Nat
  stateBlockNIDs : List Nat
deriving DecidableEq, Repr

/-- State of the `roomserver_state_snapshots` table: its rows plus the
`AUTOINCREMENT` counter backing `state_snapshot_nid` (SQLite's
`AUTOINCREMENT` never reuses a value; the counter starts at 1). -/
structure SnapshotsState where
  nextSnapshotNID : Nat
  rows : List StateSnapshotRow
deriving DecidableEq, Repr

/-- `insertState` (state snapshot table): `INSERT INTO
roomserver_state_snapshots (room_nid, state_block_nids) VALUES ($1, $2)`
followed by `SELECT state_snapshot_nid ... WHERE rowid =
last_insert_rowid()` — appends a fresh row and returns its auto-assigned
NID. -/
def insertState (s : SnapshotsState) (roomNID : Nat)
    (stateBlockNIDs : List Nat) : SnapshotsState × Nat :=
  (⟨s.nextSnapshotNID + 1,
    s.rows ++ [{ stateSnapshotNID := s.nextSnapshotNID
                 roomNID := roomNID
                 stateBlockNIDs := stateBlockNIDs }]⟩,
   s.nextSnapshotNID)

/-- `types.StateBlockNIDList`: one result entry of
`bulkSelectStateBlockNIDs`. -/
structure StateBlockNIDList where
  stateSnapshotNID : Nat
  stateBlockNIDs : List Nat
deriving DecidableEq, Repr

/-- Row order used by `ORDER BY state_snapshot_nid ASC`. -/
def snapLe (a b : StateSnapshotRow) : Prop :=
  a.stateSnapshotNID ≤ b.stateSnapshotNID

instance : DecidableRel snapLe := fun a b =>
  inferInstanceAs (Decidable (a.stateSnapshotNID ≤ b.stateSnapshotNID))

instance : IsTotal StateSnapshotRow snapLe :=
  ⟨fun a b => Nat.le_total a.stateSnapshotNID b.stateSnapshotNID⟩

instance : IsTrans StateSnapshotRow snapLe :=
  ⟨fun _ _ _ => Nat.le_trans⟩

/-- `bulkSelectStateBlockNIDs` (state snapshot table): queries
`bulkSelectStateBlockNIDsSQL` — the rows whose `state_snapshot_nid` is in
the requested list, ordered ascending — copies each returned row into the
result array, and fails with `storage: state NIDs missing from the database`
when the number of returned rows differs from the number of requested
NIDs. -/
def bulkSelectStateBlockNIDs (s : SnapshotsState) (stateNIDs : List Nat) :
    Except String (List StateBlockNIDList) :=
  let rows := List.insertionSort snapLe (s.rows.filter (fun r =>
    stateNIDs.contains r.stateSnapshotNID))
  if rows.length = stateNIDs.length then
    .ok (rows.map (fun r =>
      { stateSnapshotNID := r.stateSnapshotNID
        stateBlockNIDs := r.stateBlockNIDs }))
  else
    .error "storage: state NIDs missing from the database"

/-! ### Helper lemmas -/

theorem mem_nextStreamIDs {s : StreamIDState} {n p : Nat}
    (hp : p ∈ nextStreamIDs s n) : s.streamID < p := by
  induction n generalizing s with
  | zero => simp [nextStreamIDs] at hp
  | succ n ih =>
    simp only [nextStreamIDs, nextStreamID, List.mem_cons] at hp
    rcases hp with h | h
    · omega
    · have h' := ih h
      have hv : ({ streamID := s.streamID + 1 } : StreamIDState).streamID =
          s.streamID + 1 := rfl
      rw [hv] at h'
      omega

theorem pairwise_nextStreamIDs (s : StreamIDState) (n : Nat) :
    (nextStreamIDs s n).Pairwise (· < ·) := by
  induction n generalizing s with
  | zero => simp [nextStreamIDs]
  | succ n ih =>
    simp only [nextStreamIDs, nextStreamID]
    exact List.pairwise_cons.2 ⟨fun p hp => mem_nextStreamIDs hp, ih _⟩

theorem foldl_update_not_mem {v : Option Bool} {l : List String} {x : String}
    (m : String → Option Bool) (hx : x ∉ l) :
    (l.foldl (fun m i => Function.update m i v) m) x = m x := by
  induction l generalizing m with
  | nil => rfl
  | cons a l ih =>
    simp only [List.foldl_cons]
    rw [ih _ (fun h => hx (List.mem_cons_of_mem _ h))]
    have hxa : x ≠ a := fun h => hx (h ▸ List.mem_cons_self _ _)
    simp [Function.update, hxa]

theorem foldl_update_mem {v : Option Bool} {l : List String} {x : String}
    (m : String → Option Bool) (hx : x ∈ l) :
    (l.foldl (fun m i => Function.update m i v) m) x = v := by
  induction l generalizing m with
  | nil => cases hx
  | cons a l ih =>
    simp only [List.foldl_cons]
    by_cases h : x ∈ l
    · exact ih _ h
    · have hxa : x = a := by
        rcases List.mem_cons.1 hx with h' | h'
        · exact h'
        · exact absurd h' h
      subst hxa
      rw [foldl_update_not_mem _ h]
      simp [Function.update]

/-- Pointwise characterisation of one `SelectStateInRange` loop body: the
adds (written last) win, then the removes, then the previous value. -/
theorem applyStateEntry_lookup (needSet : String → Option Bool)
    (e : OutputRoomEventRow) (x : String) :
    applyStateEntry needSet e x =
      if x ∈ e.addStateIDs then some true
      else if x ∈ e.removeStateIDs then some false
      else needSet x := by
  unfold applyStateEntry
  by_cases ha : x ∈ e.addStateIDs
  · simp [ha, foldl_update_mem _ ha]
  · rw [foldl_update_not_mem _ ha]
    by_cases hd : x ∈ e.removeStateIDs
    · simp [ha, hd, foldl_update_mem _ hd]
    · simp [ha, hd, foldl_update_not_mem _ hd]

/-! ### Claim theorems -/

/-- C3: every successful `nextStreamID` call makes the counter exactly one
larger and returns the incremented value, and the positions returned by any
sequence of such calls are strictly increasing — in particular no position
is ever returned twice. -/
theorem nextStreamID_strictly_increasing (s : StreamIDState) (n : Nat) :
    nextStreamID s = (⟨s.streamID + 1⟩, s.streamID + 1) ∧
    (nextStreamIDs s n).Pairwise (· < ·) ∧
    (nextStreamIDs s n).Nodup := by
  refine ⟨rfl, pairwise_nextStreamIDs s n, ?_⟩
  exact (pairwise_nextStreamIDs s n).imp Nat.ne_of_lt

/-- C9: `UpdateLatestEventNIDs` leaves the auto-increment counter alone and
rewrites the row list pointwise: every row keeps its `room_nid`, `room_id`
and `room_version`; a row of a different room is untouched; the targeted
room's row changes exactly its `latest_event_nids`, `last_event_sent_nid`
and `state_snapshot_nid` fields. -/
theorem updateLatestEventNIDs_frame (s : RoomsState) (roomNID : Nat)
    (eventNIDs : List Nat) (lastSent snap : Nat) :
    (updateLatestEventNIDs s roomNID eventNIDs lastSent snap).nextRoomNID =
      s.nextRoomNID ∧
    List.Forall₂ (fun old new =>
        new.roomNID = old.roomNID ∧ new.roomID = old.roomID ∧
        new.roomVersion = old.roomVersion ∧
        (old.roomNID ≠ roomNID → new = old) ∧
        (old.roomNID = roomNID →
          new = { old with
                  latestEventNIDs := eventNIDs
                  lastEventSentNID := lastSent
                  stateSnapshotNID := snap }))
      s.rows (updateLatestEventNIDs s roomNID eventNIDs lastSent snap).rows := by
  refine ⟨rfl, ?_⟩
  rw [updateLatestEventNIDs]
  rw [List.forall₂_map_right_iff]
  rw [List.forall₂_same]
  intro r _
  by_cases h : r.roomNID = roomNID
  · simp [h]
  · simp [h]

/-- C10: inside a single output-log entry processed by `SelectStateInRange`
the removed-state IDs are written before the added-state IDs, so an event ID
listed in both ends up needed (`some true`); across two entries the later
entry's removal wins (`some false`) when that later entry does not also add
the ID. -/
theorem applyStateEntry_add_wins (m m' : String → Option Bool)
    (e e₁ e₂ : OutputRoomEventRow) (x y : String)
    (hdel : x ∈ e.removeStateIDs) (hadd : x ∈ e.addStateIDs)
    (hdel₂ : y ∈ e₂.removeStateIDs) (hadd₂ : y ∉ e₂.addStateIDs) :
    applyStateEntry m e x = some true ∧
    applyStateEntry (applyStateEntry m' e₁) e₂ y = some false := by
  constructor
  · rw [applyStateEntry_lookup]
    simp [hadd]
  · rw [applyStateEntry_lookup]
    simp [hadd₂, hdel₂]

/-- Witness for C10 at a concrete entry listing `"X"` in both its remove and
add lists, and a concrete pair of entries where the later one removes
`"Y"`. -/
theorem applyStateEntry_add_wins_witness :
    applyStateEntry (fun _ => none)
      { id := 1, eventID := "$a", roomID := "!r", eventType := "m.x",
        sender := "@u", addStateIDs := ["X"], removeStateIDs := ["X"],
        sessionID := none, transactionID := none, excludeFromSync := false }
      "X" = some true ∧
    applyStateEntry (applyStateEntry (fun _ => none)
      { id := 1, eventID := "$a", roomID := "!r", eventType := "m.x",
        sender := "@u", addStateIDs := ["Y"], removeStateIDs := [],
        sessionID := none, transactionID := none, excludeFromSync := false })
      { id := 2, eventID := "$b", roomID := "!r", eventType := "m.x",
        sender := "@u", addStateIDs := [], removeStateIDs := ["Y"],
        sessionID := none, transactionID := none, excludeFromSync := false }
      "Y" = some false :=
  applyStateEntry_add_wins (fun _ => none) (fun _ => none) _ _ _ "X" "Y"
    (by decide) (by decide) (by decide) (by decide)

/-- C8: when every stored snapshot NID is below the auto-increment counter
(the table invariant), `insertState` appends a fresh row whose NID it
returns, the returned NID differs from every previously stored (hence every
previously returned) one, the invariant is preserved, and an immediately
repeated call with identical arguments returns a strictly larger NID. -/
theorem insertState_fresh (s : SnapshotsState) (roomNID : Nat)
    (blocks : List Nat)
    (hs : ∀ r ∈ s.rows, r.stateSnapshotNID < s.nextSnapshotNID) :
    (insertState s roomNID blocks).2 ∉ s.rows.map (·.stateSnapshotNID) ∧
    (insertState s roomNID blocks).1.rows =
      s.rows ++ [{ stateSnapshotNID := (insertState s roomNID blocks).2
                   roomNID := roomNID
                   stateBlockNIDs := blocks }] ∧
    (∀ r ∈ (insertState s roomNID blocks).1.rows,
      r.stateSnapshotNID < (insertState s roomNID blocks).1.nextSnapshotNID) ∧
    (insertState (insertState s roomNID blocks).1 roomNID blocks).2 =
      (insertState s roomNID blocks).2 + 1 := by
  refine ⟨?_, rfl, ?_, rfl⟩
  · intro hmem
    rcases List.mem_map.1 hmem with ⟨r, hr, hid⟩
    have := hs r hr
    simp only [insertState] at hid
    omega
  · intro r hr
    simp only [insertState, List.mem_append, List.mem_singleton] at hr ⊢
    rcases hr with hr | hr
    · have := hs r hr
      omega
    · subst hr
      simp

/-- Witness for C8 at a concrete snapshot table holding one row. -/
theorem insertState_fresh_witness :
    (insertState ⟨2, [⟨1, 7, [3, 4]⟩]⟩ 7 [3, 4]).2 ∉
      ([⟨1, 7, [3, 4]⟩] : List StateSnapshotRow).map (·.stateSnapshotNID) ∧
    (insertState ⟨2, [⟨1, 7, [3, 4]⟩]⟩ 7 [3, 4]).1.rows =
      [⟨1, 7, [3, 4]⟩] ++
        [{ stateSnapshotNID := (insertState ⟨2, [⟨1, 7, [3, 4]⟩]⟩ 7 [3, 4]).2
           roomNID := 7
           stateBlockNIDs := [3, 4] }] ∧
    (∀ r ∈ (insertState ⟨2, [⟨1, 7, [3, 4]⟩]⟩ 7 [3, 4]).1.rows,
      r.stateSnapshotNID <
        (insertState ⟨2, [⟨1, 7, [3, 4]⟩]⟩ 7 [3, 4]).1.nextSnapshotNID) ∧
    (insertState (insertState ⟨2, [⟨1, 7, [3, 4]⟩]⟩ 7 [3, 4]).1 7 [3, 4]).2 =
      (insertState ⟨2, [⟨1, 7, [3, 4]⟩]⟩ 7 [3, 4]).2 + 1 :=
  insertState_fresh ⟨2, [⟨1, 7, [3, 4]⟩]⟩ 7 [3, 4] (by decide)

theorem find?_append_of_none {α : Type} {p : α → Bool} {l₁ l₂ : List α}
    (h : ∀ x ∈ l₁, p x = false) :
    (l₁ ++ l₂).find? p = l₂.find? p := by
  induction l₁ with
  | nil => rfl
  | cons a l ih =>
    rw [List.cons_append, List.find?_cons_of_neg]
    · exact ih fun x hx => h x (List.mem_cons_of_mem _ hx)
    · simp [h a (List.mem_cons_self ..)]

/-- Behaviour of `insertEvent` when no stored row carries the event's ID:
the insert takes effect, appending a row at the freshly allocated
position. -/
theorem insertEvent_of_not_exists (s : SyncAPIState) (ev : HeaderedEvent)
    (a r : List String) (t : Option TransactionID) (x : Bool)
    (h : (s.rows.any fun row => row.eventID == ev.eventID) = false) :
    insertEvent s ev a r t x =
      ({ rows := s.rows ++ [{ id := s.streamID.streamID + 1
                              eventID := ev.eventID
                              roomID := ev.roomID
                              eventType := ev.eventType
                              sender := ev.sender
                              addStateIDs := a
                              removeStateIDs := r
                              sessionID := t.map (·.sessionID)
                              transactionID := t.map (·.transactionID)
                              excludeFromSync := x }]
         streamID := ⟨s.streamID.streamID + 1⟩ }, s.streamID.streamID + 1) := by
  simp [insertEvent, nextStreamID, h]

/-- Behaviour of `insertEvent` on an `event_id` conflict: only the
`exclude_from_sync` flag of the conflicting row is rewritten, yet the
returned position is still the freshly allocated one. -/
theorem insertEvent_of_exists (s : SyncAPIState) (ev : HeaderedEvent)
    (a r : List String) (t : Option TransactionID) (x : Bool)
    (h : (s.rows.any fun row => row.eventID == ev.eventID) = true) :
    insertEvent s ev a r t x =
      ({ rows := s.rows.map fun row =>
           if row.eventID == ev.eventID then { row with excludeFromSync := x }
           else row
         streamID := ⟨s.streamID.streamID + 1⟩ }, s.streamID.streamID + 1) := by
  simp [insertEvent, nextStreamID, h]

/-- C6: inserting a room ID that is not yet stored allocates the next room
NID; any further `InsertRoomNID` call for the same room ID — whatever room
version it passes — leaves the table untouched (`ON CONFLICT DO NOTHING`)
and returns the very same NID, and the stored row keeps the first call's
room version. -/
theorem insertRoomNID_idempotent (s : RoomsState) (roomID v v' : String)
    (h : ∀ r ∈ s.rows, r.roomID ≠ roomID) :
    (insertRoomNID s roomID v).2 = some s.nextRoomNID ∧
    insertRoomNID (insertRoomNID s roomID v).1 roomID v' =
      ((insertRoomNID s roomID v).1, some s.nextRoomNID) ∧
    (insertRoomNID s roomID v).1.rows.find? (fun r => r.roomID == roomID) =
      some { roomNID := s.nextRoomNID
             roomID := roomID
             latestEventNIDs := []
             lastEventSentNID := 0
             stateSnapshotNID := 0
             roomVersion := v } := by
  have hmatch : ∀ r ∈ s.rows, (r.roomID == roomID) = false := by
    intro r hr
    simp [h r hr]
  have hany : (s.rows.any fun r => r.roomID == roomID) = false := by
    rw [List.any_eq_false]
    intro r hr
    simp [h r hr]
  have hfirst : insertRoomNID s roomID v =
      ({ nextRoomNID := s.nextRoomNID + 1
         rows := s.rows ++ [{ roomNID := s.nextRoomNID
                              roomID := roomID
                              latestEventNIDs := []
                              lastEventSentNID := 0
                              stateSnapshotNID := 0
                              roomVersion := v }] },
        some s.nextRoomNID) := by
    simp only [insertRoomNID, hany, Bool.false_eq_true, if_false,
      selectRoomNID]
    rw [find?_append_of_none hmatch]
    simp
  refine ⟨by rw [hfirst], ?_,
    by rw [hfirst]; rw [find?_append_of_none hmatch]; simp⟩
  rw [hfirst]
  have hany₂ : ((s.rows ++ [({ roomNID := s.nextRoomNID
                               roomID := roomID
                               latestEventNIDs := []
                               lastEventSentNID := 0
                               stateSnapshotNID := 0
                               roomVersion := v } : RoomRow)]).any
      fun r => r.roomID == roomID) = true := by
    simp [List.any_append]
  simp only [insertRoomNID, hany₂, if_true, selectRoomNID]
  rw [find?_append_of_none hmatch]
  simp

/-- Witness for C6: a fresh room ID inserted into an empty rooms table with
version `"1"`, re-inserted with version `"2"`. -/
theorem insertRoomNID_idempotent_witness :
    (insertRoomNID ⟨1, []⟩ "!r:x" "1").2 = some 1 ∧
    insertRoomNID (insertRoomNID ⟨1, []⟩ "!r:x" "1").1 "!r:x" "2" =
      ((insertRoomNID ⟨1, []⟩ "!r:x" "1").1, some 1) ∧
    (insertRoomNID ⟨1, []⟩ "!r:x" "1").1.rows.find?
        (fun r => r.roomID == "!r:x") =
      some { roomNID := 1
             roomID := "!r:x"
             latestEventNIDs := []
             lastEventSentNID := 0
             stateSnapshotNID := 0
             roomVersion := "1" } :=
  insertRoomNID_idempotent ⟨1, []⟩ "!r:x" "1" "2" (by decide)

/-- C1 counterexample: on a fresh store, inserting the same headered event
twice leaves a single row — the upsert only touches `exclude_from_sync` —
but the two `InsertEvent` calls return the stream positions 1 and 2: the
second call's returned position comes from a fresh `nextStreamID`
allocation, so it is NOT the first call's position, contradicting the claim
that both calls return the same stream position. -/
theorem insertEvent_twice_position_differs :
    (insertEvent (insertEvent ⟨[], ⟨0⟩⟩ ⟨"$e:x", "!r:x", "m.room.message", "@u:x"⟩
        [] [] none false).1
      ⟨"$e:x", "!r:x", "m.room.message", "@u:x"⟩ [] [] none true).1.rows.length
      = 1 ∧
    (insertEvent ⟨[], ⟨0⟩⟩ ⟨"$e:x", "!r:x", "m.room.message", "@u:x"⟩
      [] [] none false).2 = 1 ∧
    (insertEvent (insertEvent ⟨[], ⟨0⟩⟩ ⟨"$e:x", "!r:x", "m.room.message", "@u:x"⟩
        [] [] none false).1
      ⟨"$e:x", "!r:x", "m.room.message", "@u:x"⟩ [] [] none true).2 = 2 := by
  decide

/-- C1 amended: inserting an event whose ID is already stored creates no
second row — the upsert rewrites only the `exclude_from_sync` flag of the
existing rows keyed by that event ID — but the returned stream position is
freshly allocated by `nextStreamID`, one larger than (hence different from)
the position returned by the first call. -/
theorem insertEvent_upsert (s : SyncAPIState) (ev : HeaderedEvent)
    (a r a' r' : List String) (t t' : Option TransactionID) (x₁ x₂ : Bool)
    (h : ∀ row ∈ s.rows, row.eventID ≠ ev.eventID) :
    (insertEvent (insertEvent s ev a r t x₁).1 ev a' r' t' x₂).1.rows =
      (insertEvent s ev a r t x₁).1.rows.map (fun row =>
        if row.eventID == ev.eventID then { row with excludeFromSync := x₂ }
        else row) ∧
    (insertEvent (insertEvent s ev a r t x₁).1 ev a' r' t' x₂).1.rows.length =
      (insertEvent s ev a r t x₁).1.rows.length ∧
    (insertEvent (insertEvent s ev a r t x₁).1 ev a' r' t' x₂).2 =
      (insertEvent s ev a r t x₁).2 + 1 ∧
    (insertEvent (insertEvent s ev a r t x₁).1 ev a' r' t' x₂).2 ≠
      (insertEvent s ev a r t x₁).2 := by
  have hany : (s.rows.any fun row => row.eventID == ev.eventID) = false := by
    rw [List.any_eq_false]
    intro row hr
    simp [h row hr]
  have h₁ := insertEvent_of_not_exists s ev a r t x₁ hany
  have hany₂ : ((insertEvent s ev a r t x₁).1.rows.any
      fun row => row.eventID == ev.eventID) = true := by
    rw [h₁]
    simp [List.any_append]
  have h₂ := insertEvent_of_exists (insertEvent s ev a r t x₁).1 ev a' r' t' x₂
    hany₂
  refine ⟨?_, ?_, ?_, ?_⟩
  · rw [h₂]
  · rw [h₂]
    simp
  · rw [h₂, h₁]
  · rw [h₂, h₁]
    simp

/-- Witness for C1 (amended) on a fresh store and a concrete event. -/
theorem insertEvent_upsert_witness :
    (insertEvent (insertEvent ⟨[], ⟨0⟩⟩ ⟨"$e:x", "!r:x", "m.a", "@u:x"⟩
        ["A"] [] none false).1
      ⟨"$e:x", "!r:x", "m.a", "@u:x"⟩ [] ["B"] none true).1.rows =
      (insertEvent ⟨[], ⟨0⟩⟩ ⟨"$e:x", "!r:x", "m.a", "@u:x"⟩
        ["A"] [] none false).1.rows.map (fun row =>
          if row.eventID == "$e:x" then { row with excludeFromSync := true }
          else row) ∧
    (insertEvent (insertEvent ⟨[], ⟨0⟩⟩ ⟨"$e:x", "!r:x", "m.a", "@u:x"⟩
        ["A"] [] none false).1
      ⟨"$e:x", "!r:x", "m.a", "@u:x"⟩ [] ["B"] none true).1.rows.length =
      (insertEvent ⟨[], ⟨0⟩⟩ ⟨"$e:x", "!r:x", "m.a", "@u:x"⟩
        ["A"] [] none false).1.rows.length ∧
    (insertEvent (insertEvent ⟨[], ⟨0⟩⟩ ⟨"$e:x", "!r:x", "m.a", "@u:x"⟩
        ["A"] [] none false).1
      ⟨"$e:x", "!r:x", "m.a", "@u:x"⟩ [] ["B"] none true).2 =
      (insertEvent ⟨[], ⟨0⟩⟩ ⟨"$e:x", "!r:x", "m.a", "@u:x"⟩
        ["A"] [] none false).2 + 1 ∧
    (insertEvent (insertEvent ⟨[], ⟨0⟩⟩ ⟨"$e:x", "!r:x", "m.a", "@u:x"⟩
        ["A"] [] none false).1
      ⟨"$e:x", "!r:x", "m.a", "@u:x"⟩ [] ["B"] none true).2 ≠
      (insertEvent ⟨[], ⟨0⟩⟩ ⟨"$e:x", "!r:x", "m.a", "@u:x"⟩
        ["A"] [] none false).2 :=
  insertEvent_upsert ⟨[], ⟨0⟩⟩ ⟨"$e:x", "!r:x", "m.a", "@u:x"⟩
    ["A"] [] [] ["B"] none none false true (by decide)

/-- A list that is sorted by non-strict position order and whose positions
are pairwise distinct is sorted by strict position order. -/
theorem sorted_posLt_of_sorted_posLe {l : List OutputRoomEventRow}
    (h₁ : l.Sorted posLe) (h₂ : (l.map (·.id)).Nodup) : l.Sorted posLt := by
  have h₂' : l.Pairwise (fun a b => a.id ≠ b.id) := List.pairwise_map.1 h₂
  exact (h₁.and h₂').imp fun h => Nat.lt_of_le_of_ne h.1 h.2

/-- C5: with `chronologicalOrder` the result of `SelectRecentEvents` is
sorted by ascending stream position (oldest first), as is the result of
`SelectEarlyEvents`; without `chronologicalOrder`, `SelectRecentEvents`
returns its rows in the scanned descending position order (newest
first). -/
theorem selectEvents_ordering (tbl : List OutputRoomEventRow)
    (roomID : String) (low high limit : Nat) (onlySyncEvents : Bool) :
    (selectRecentEvents tbl roomID low high limit true onlySyncEvents).Sorted
      posLe ∧
    (selectEarlyEvents tbl roomID low high limit).Sorted posLe ∧
    (selectRecentEvents tbl roomID low high limit false onlySyncEvents).Sorted
      posGe := by
  refine ⟨?_, ?_, ?_⟩
  · rw [selectRecentEvents]
    simp only [if_true]
    exact List.sorted_insertionSort posLe _
  · rw [selectEarlyEvents]
    exact List.sorted_insertionSort posLe _
  · rw [selectRecentEvents]
    simp only [Bool.false_eq_true, if_false]
    exact List.Pairwise.sublist (List.take_sublist _ _)
      (List.sorted_insertionSort posGe _)

/-- Once a room's `needSet` maps `x` to `some false`, folding further
entries none of which lists `x` among its added-state IDs for that room
keeps it at `some false` (each such entry either removes `x` again or
leaves it alone). -/
theorem foldl_stateInRangeStep_preserved {room x : String}
    {l : List OutputRoomEventRow} (acc : String → String → Option Bool)
    (hacc : acc room x = some false)
    (hl : ∀ r ∈ l, r.roomID = room → x ∉ r.addStateIDs) :
    (l.foldl stateInRangeStep acc) room x = some false := by
  induction l generalizing acc with
  | nil => exact hacc
  | cons r l ih =>
    rw [List.foldl_cons]
    refine ih _ ?_ (fun r' hr' => hl r' (List.mem_cons_of_mem _ hr'))
    by_cases hr : r.roomID = room
    · rw [stateInRangeStep, hr, Function.update_same, applyStateEntry_lookup]
      have hx : x ∉ r.addStateIDs := hl r (List.mem_cons_self _ _) hr
      rw [if_neg hx]
      by_cases hd : x ∈ r.removeStateIDs
      · rw [if_pos hd]
      · rw [if_neg hd]
        exact hacc
    · rw [stateInRangeStep, Function.update_noteq (fun hh => hr hh.symm)]
      exact hacc

/-- C2 counterexample: this log's entries for room `"!r"` in range (0, 3]
include an add of `"X"` at position 1 and a later removal at position 2,
yet `SelectStateInRange` reports `"X"` as needed (`some true`), because a
still later entry at position 3 re-adds it — the claim as stated does not
exclude re-addition after the removal. -/
theorem selectStateInRange_readd_counterexample :
    (1 : Nat) < 2 ∧
    selectStateInRange
      [{ id := 1, eventID := "$a", roomID := "!r", eventType := "m.x",
         sender := "@u", addStateIDs := ["X"], removeStateIDs := [],
         sessionID := none, transactionID := none, excludeFromSync := false },
       { id := 2, eventID := "$b", roomID := "!r", eventType := "m.x",
         sender := "@u", addStateIDs := [], removeStateIDs := ["X"],
         sessionID := none, transactionID := none, excludeFromSync := false },
       { id := 3, eventID := "$c", roomID := "!r", eventType := "m.x",
         sender := "@u", addStateIDs := ["X"], removeStateIDs := [],
         sessionID := none, transactionID := none, excludeFromSync := false }]
      0 3 10 "!r" "X" = some true := by
  decide

/-- C2 amended: if the log (with pairwise distinct positions, scanned with a
limit at least the number of entries in range) contains, for the same room,
an entry adding state event ID `x` and a later entry removing `x`, and no
entry at the removing entry's position or later adds `x` for that room,
then `SelectStateInRange` over that range reports `x` as not needed: the
room's needed-state map sends it to `some false`. -/
theorem selectStateInRange_net_removal (tbl : List OutputRoomEventRow)
    (low high limit : Nat) (room x : String) (ra rd : OutputRoomEventRow)
    (hids : (tbl.map (·.id)).Nodup)
    (hlim : (tbl.filter (fun r =>
      low < r.id && r.id ≤ high)).length ≤ limit)
    (hraMem : ra ∈ tbl) (hraRoom : ra.roomID = room)
    (hraAdd : x ∈ ra.addStateIDs)
    (hraLow : low < ra.id) (hraHigh : ra.id ≤ high)
    (hrdMem : rd ∈ tbl) (hrdRoom : rd.roomID = room)
    (hrdDel : x ∈ rd.removeStateIDs) (hrdAdd : x ∉ rd.addStateIDs)
    (hrdLow : low < rd.id) (hrdHigh : rd.id ≤ high)
    (hord : ra.id < rd.id)
    (hlater : ∀ r ∈ tbl, r.roomID = room → rd.id < r.id →
      x ∉ r.addStateIDs) :
    selectStateInRange tbl low high limit room x = some false := by
  have hS : selectStateInRangeRows tbl low high limit =
      List.insertionSort posLe (tbl.filter (fun r =>
        low < r.id && r.id ≤ high)) := by
    rw [selectStateInRangeRows, List.take_of_length_le]
    rw [(List.perm_insertionSort posLe _).length_eq]
    exact hlim
  have hfilterIds : ((tbl.filter (fun r =>
      low < r.id && r.id ≤ high)).map (·.id)).Nodup :=
    ((List.filter_sublist tbl).map (·.id)).nodup hids
  have hsortLe : (selectStateInRangeRows tbl low high limit).Sorted posLe := by
    rw [hS]
    exact List.sorted_insertionSort posLe _
  have hnodupS : ((selectStateInRangeRows tbl low high limit).map
      (·.id)).Nodup := by
    rw [hS]
    exact (((List.perm_insertionSort posLe _).map (·.id)).nodup_iff).2
      hfilterIds
  have hsortLt : (selectStateInRangeRows tbl low high limit).Sorted posLt :=
    sorted_posLt_of_sorted_posLe hsortLe hnodupS
  have hrdS : rd ∈ selectStateInRangeRows tbl low high limit := by
    rw [hS, List.mem_insertionSort, List.mem_filter]
    refine ⟨hrdMem, ?_⟩
    simp [hrdLow, hrdHigh]
  obtain ⟨L₁, L₂, hsplit⟩ := List.append_of_mem hrdS
  have hL₂gt : ∀ r ∈ L₂, rd.id < r.id := by
    rw [hsplit] at hsortLt
    have hmid := (List.pairwise_append.1 hsortLt).2.1
    exact fun r hr => (List.pairwise_cons.1 hmid).1 r hr
  have hL₂tbl : ∀ r ∈ L₂, r ∈ tbl := by
    intro r hr
    have hrS : r ∈ selectStateInRangeRows tbl low high limit := by
      rw [hsplit]
      exact List.mem_append_right _ (List.mem_cons_of_mem _ hr)
    rw [hS, List.mem_insertionSort, List.mem_filter] at hrS
    exact hrS.1
  rw [selectStateInRange, hsplit, List.foldl_append, List.foldl_cons]
  refine foldl_stateInRangeStep_preserved _ ?_ ?_
  · rw [stateInRangeStep, hrdRoom, Function.update_same,
      applyStateEntry_lookup, if_neg hrdAdd, if_pos hrdDel]
  · intro r hr hroom
    exact hlater r (hL₂tbl r hr) hroom (hL₂gt r hr)

/-- Witness for C2 (amended): a two-entry log adding `"X"` at position 1 and
removing it at position 2 nets to `"X"` removed. -/
theorem selectStateInRange_net_removal_witness :
    selectStateInRange
      [{ id := 1, eventID := "$a", roomID := "!r", eventType := "m.x",
         sender := "@u", addStateIDs := ["X"], removeStateIDs := [],
         sessionID := none, transactionID := none, excludeFromSync := false },
       { id := 2, eventID := "$b", roomID := "!r", eventType := "m.x",
         sender := "@u", addStateIDs := [], removeStateIDs := ["X"],
         sessionID := none, transactionID := none, excludeFromSync := false }]
      0 2 10 "!r" "X" = some false :=
  selectStateInRange_net_removal
    [{ id := 1, eventID := "$a", roomID := "!r", eventType := "m.x",
       sender := "@u", addStateIDs := ["X"], removeStateIDs := [],
       sessionID := none, transactionID := none, excludeFromSync := false },
     { id := 2, eventID := "$b", roomID := "!r", eventType := "m.x",
       sender := "@u", addStateIDs := [], removeStateIDs := ["X"],
       sessionID := none, transactionID := none, excludeFromSync := false }]
    0 2 10 "!r" "X"
    { id := 1, eventID := "$a", roomID := "!r", eventType := "m.x",
      sender := "@u", addStateIDs := ["X"], removeStateIDs := [],
      sessionID := none, transactionID := none, excludeFromSync := false }
    { id := 2, eventID := "$b", roomID := "!r", eventType := "m.x",
      sender := "@u", addStateIDs := [], removeStateIDs := ["X"],
      sessionID := none, transactionID := none, excludeFromSync := false }
    (by decide) (by decide) (by decide) (by decide) (by decide) (by decide)
    (by decide) (by decide) (by decide) (by decide) (by decide) (by decide)
    (by decide) (by decide) (by decide)

/-- Filtering a strictly position-sorted list by two disjoint predicates,
every `q`-row lying strictly after every `p`-row, and concatenating, equals
filtering by their union. -/
theorem filter_append_interval {p q pall : OutputRoomEventRow → Bool}
    (hsplit : ∀ r, pall r = (p r || q r))
    (hdisj : ∀ r, p r = true → q r = true → False)
    (hpq : ∀ a b, q a = true → p b = true → b.id < a.id) :
    ∀ l : List OutputRoomEventRow, l.Sorted posLt →
      l.filter p ++ l.filter q = l.filter pall := by
  intro l hl
  induction l with
  | nil => rfl
  | cons x xs ih =>
    have hx : ∀ y ∈ xs, x.id < y.id :=
      fun y hy => (List.pairwise_cons.1 hl).1 y hy
    have hxs : xs.Sorted posLt := (List.pairwise_cons.1 hl).2
    by_cases hp : p x = true
    · have hq : q x = false := by
        cases hqv : q x
        · rfl
        · exact (hdisj x hp hqv).elim
      have hpall : pall x = true := by
        rw [hsplit x, hp, Bool.true_or]
      rw [List.filter_cons_of_pos hp,
        List.filter_cons_of_neg (by simp [hq]),
        List.filter_cons_of_pos hpall, List.cons_append, ih hxs]
    · by_cases hq : q x = true
      · have hxsp : xs.filter p = [] := by
          rw [List.filter_eq_nil_iff]
          intro y hy hpy
          exact absurd (hpq x y hq hpy) (Nat.lt_asymm (hx y hy))
        have hpall : pall x = true := by
          rw [hsplit x, hq, Bool.or_true]
        rw [List.filter_cons_of_neg hp, List.filter_cons_of_pos hq,
          List.filter_cons_of_pos hpall, hxsp, List.nil_append]
        have hcongr : ∀ y ∈ xs, q y = pall y := by
          intro y hy
          have hpy : p y = false := by
            cases hpv : p y
            · rfl
            · exact absurd (hpq x y hq hpv) (Nat.lt_asymm (hx y hy))
          rw [hsplit y, hpy, Bool.false_or]
        rw [List.filter_congr hcongr]
      · have hpall : pall x = false := by
          rw [hsplit x]
          cases hpv : p x
          · cases hqv : q x
            · rfl
            · exact absurd hqv hq
          · exact absurd hpv hp
        rw [List.filter_cons_of_neg hp, List.filter_cons_of_neg hq,
          List.filter_cons_of_neg (by simp [hpall]), ih hxs]

/-- C4: on a log whose rows are in strictly increasing position order, with
limits at least the matching row counts and `low ≤ m ≤ high`,
`SelectEarlyEvents` over (low, m] followed by `SelectRecentEvents` over
(m, high] (chronological, not sync-filtered) is exactly the sublist of the
room's rows with position in (low, high] — every such entry exactly once,
no gaps, no duplicates — and that list's positions are strictly
increasing. -/
theorem selectEvents_complementary_ranges (tbl : List OutputRoomEventRow)
    (roomID : String) (low m high lim₁ lim₂ : Nat)
    (htbl : tbl.Sorted posLt) (hlm : low ≤ m) (hmh : m ≤ high)
    (hlim₁ : (tbl.filter (fun r =>
      r.roomID == roomID && low < r.id && r.id ≤ m)).length ≤ lim₁)
    (hlim₂ : (tbl.filter (fun r =>
      r.roomID == roomID && m < r.id && r.id ≤ high)).length ≤ lim₂) :
    selectEarlyEvents tbl roomID low m lim₁ ++
      selectRecentEvents tbl roomID m high lim₂ true false =
      tbl.filter (fun r =>
        r.roomID == roomID && low < r.id && r.id ≤ high) ∧
    (tbl.filter (fun r =>
      r.roomID == roomID && low < r.id && r.id ≤ high)).Sorted posLt := by
  have hids : (tbl.map (·.id)).Nodup :=
    List.pairwise_map.2 (htbl.imp fun h => Nat.ne_of_lt h)
  have hFlowLe : (tbl.filter (fun r =>
      r.roomID == roomID && low < r.id && r.id ≤ m)).Sorted posLe :=
    (htbl.filter _).imp fun h => Nat.le_of_lt h
  have hearly : selectEarlyEvents tbl roomID low m lim₁ =
      tbl.filter (fun r => r.roomID == roomID && low < r.id && r.id ≤ m) := by
    rw [selectEarlyEvents, hFlowLe.insertionSort_eq,
      List.take_of_length_le hlim₁, hFlowLe.insertionSort_eq]
  have hqcongr : tbl.filter (fun r =>
        r.roomID == roomID && m < r.id && r.id ≤ high &&
          (!false || !r.excludeFromSync)) =
      tbl.filter (fun r =>
        r.roomID == roomID && m < r.id && r.id ≤ high) :=
    List.filter_congr (fun r _ => by simp)
  have hFhighIds : ((tbl.filter (fun r =>
      r.roomID == roomID && m < r.id && r.id ≤ high)).map (·.id)).Nodup :=
    ((List.filter_sublist tbl).map (·.id)).nodup hids
  have hrecent : selectRecentEvents tbl roomID m high lim₂ true false =
      tbl.filter (fun r =>
        r.roomID == roomID && m < r.id && r.id ≤ high) := by
    rw [selectRecentEvents]
    simp only [if_true]
    rw [hqcongr]
    rw [List.take_of_length_le (le_trans
      (Nat.le_of_eq (List.perm_insertionSort posGe _).length_eq) hlim₂)]
    refine List.eq_of_perm_of_sorted (r := posLt) ?_ ?_ ?_
    · exact (List.perm_insertionSort posLe _).trans
        (List.perm_insertionSort posGe _)
    · refine sorted_posLt_of_sorted_posLe
        (List.sorted_insertionSort posLe _) ?_
      exact (((List.perm_insertionSort posLe _).map (·.id)).nodup_iff).2
        ((((List.perm_insertionSort posGe _).map (·.id)).nodup_iff).2
          hFhighIds)
    · exact htbl.filter _
  refine ⟨?_, htbl.filter _⟩
  rw [hearly, hrecent]
  refine filter_append_interval ?_ ?_ ?_ tbl htbl
  · intro r
    by_cases hb : r.roomID == roomID
    · simp only [hb, Bool.true_and]
      rw [Bool.eq_iff_iff]
      simp only [Bool.and_eq_true, Bool.or_eq_true, decide_eq_true_eq]
      omega
    · simp only [Bool.not_eq_true] at hb
      simp [hb]
  · intro r hp hq
    simp only [Bool.and_eq_true, decide_eq_true_eq] at hp hq
    omega
  · intro a b hq hp
    simp only [Bool.and_eq_true, decide_eq_true_eq] at hp hq
    omega

/-- Witness for C4: a three-row log for room `"!r"` at positions 1, 2, 3,
split at `m = 2` inside the queried window (0, 3]. -/
theorem selectEvents_complementary_ranges_witness :
    selectEarlyEvents
        [{ id := 1, eventID := "$a", roomID := "!r", eventType := "m.x",
           sender := "@u", addStateIDs := [], removeStateIDs := [],
           sessionID := none, transactionID := none,
           excludeFromSync := false },
         { id := 2, eventID := "$b", roomID := "!r", eventType := "m.x",
           sender := "@u", addStateIDs := [], removeStateIDs := [],
           sessionID := none, transactionID := none,
           excludeFromSync := true },
         { id := 3, eventID := "$c", roomID := "!r", eventType := "m.x",
           sender := "@u", addStateIDs := [], removeStateIDs := [],
           sessionID := none, transactionID := none,
           excludeFromSync := false }] "!r" 0 2 5 ++
      selectRecentEvents
        [{ id := 1, eventID := "$a", roomID := "!r", eventType := "m.x",
           sender := "@u", addStateIDs := [], removeStateIDs := [],
           sessionID := none, transactionID := none,
           excludeFromSync := false },
         { id := 2, eventID := "$b", roomID := "!r", eventType := "m.x",
           sender := "@u", addStateIDs := [], removeStateIDs := [],
           sessionID := none, transactionID := none,
           excludeFromSync := true },
         { id := 3, eventID := "$c", roomID := "!r", eventType := "m.x",
           sender := "@u", addStateIDs := [], removeStateIDs := [],
           sessionID := none, transactionID := none,
           excludeFromSync := false }] "!r" 2 3 5 true false =
      List.filter (fun r =>
          r.roomID == "!r" && 0 < r.id && r.id ≤ 3)
        [{ id := 1, eventID := "$a", roomID := "!r", eventType := "m.x",
           sender := "@u", addStateIDs := [], removeStateIDs := [],
           sessionID := none, transactionID := none,
           excludeFromSync := false },
         { id := 2, eventID := "$b", roomID := "!r", eventType := "m.x",
           sender := "@u", addStateIDs := [], removeStateIDs := [],
           sessionID := none, transactionID := none,
           excludeFromSync := true },
         { id := 3, eventID := "$c", roomID := "!r", eventType := "m.x",
           sender := "@u", addStateIDs := [], removeStateIDs := [],
           sessionID := none, transactionID := none,
           excludeFromSync := false }] ∧
    (List.filter (fun r =>
          r.roomID == "!r" && 0 < r.id && r.id ≤ 3)
        [{ id := 1, eventID := "$a", roomID := "!r", eventType := "m.x",
           sender := "@u", addStateIDs := [], removeStateIDs := [],
           sessionID := none, transactionID := none,
           excludeFromSync := false },
         { id := 2, eventID := "$b", roomID := "!r", eventType := "m.x",
           sender := "@u", addStateIDs := [], removeStateIDs := [],
           sessionID := none, transactionID := none,
           excludeFromSync := true },
         { id := 3, eventID := "$c", roomID := "!r", eventType := "m.x",
           sender := "@u", addStateIDs := [], removeStateIDs := [],
           sessionID := none, transactionID := none,
           excludeFromSync := false }]).Sorted posLt :=
  selectEvents_complementary_ranges
    [{ id := 1, eventID := "$a", roomID := "!r", eventType := "m.x",
       sender := "@u", addStateIDs := [], removeStateIDs := [],
       sessionID := none, transactionID := none, excludeFromSync := false },
     { id := 2, eventID := "$b", roomID := "!r", eventType := "m.x",
       sender := "@u", addStateIDs := [], removeStateIDs := [],
       sessionID := none, transactionID := none, excludeFromSync := true },
     { id := 3, eventID := "$c", roomID := "!r", eventType := "m.x",
       sender := "@u", addStateIDs := [], removeStateIDs := [],
       sessionID := none, transactionID := none, excludeFromSync := false }]
    "!r" 0 2 3 5 5
    (by decide) (by decide) (by decide) (by decide) (by decide)

/-- The snapshot NIDs of the rows matched by a `bulkSelectStateBlockNIDs`
request are exactly the requested NIDs that have a stored row. -/
theorem mem_bulkFilter {s : SnapshotsState} {stateNIDs : List Nat} {x : Nat} :
    x ∈ (s.rows.filter (fun r =>
        stateNIDs.contains r.stateSnapshotNID)).map (·.stateSnapshotNID) ↔
      x ∈ stateNIDs ∧ ∃ r ∈ s.rows, r.stateSnapshotNID = x := by
  constructor
  · intro hx
    rcases List.mem_map.1 hx with ⟨r, hr, hid⟩
    rcases List.mem_filter.1 hr with ⟨hrs, hcont⟩
    subst hid
    refine ⟨?_, r, hrs, rfl⟩
    simpa [List.contains] using hcont
  · rintro ⟨hxl, r, hrs, hid⟩
    refine List.mem_map.2 ⟨r, List.mem_filter.2 ⟨hrs, ?_⟩, hid⟩
    subst hid
    simpa [List.contains] using hxl

/-- When the requested NIDs are distinct and all stored, the row filter of
`bulkSelectStateBlockNIDs` matches exactly one row per requested NID. -/
theorem bulkFilter_length_of_all_present {s : SnapshotsState}
    {stateNIDs : List Nat} (hnd : stateNIDs.Nodup)
    (htbl : (s.rows.map (·.stateSnapshotNID)).Nodup)
    (hall : ∀ nid ∈ stateNIDs, ∃ r ∈ s.rows, r.stateSnapshotNID = nid) :
    (s.rows.filter (fun r =>
      stateNIDs.contains r.stateSnapshotNID)).length = stateNIDs.length := by
  have hFids : ((s.rows.filter (fun r =>
      stateNIDs.contains r.stateSnapshotNID)).map
      (·.stateSnapshotNID)).Nodup :=
    ((List.filter_sublist s.rows).map (·.stateSnapshotNID)).nodup htbl
  have hset : ((s.rows.filter (fun r =>
      stateNIDs.contains r.stateSnapshotNID)).map
      (·.stateSnapshotNID)).toFinset = stateNIDs.toFinset := by
    ext x
    simp only [List.mem_toFinset]
    rw [mem_bulkFilter]
    exact ⟨fun h => h.1, fun h => ⟨h, hall x h⟩⟩
  have hlen : ((s.rows.filter (fun r =>
      stateNIDs.contains r.stateSnapshotNID)).map
      (·.stateSnapshotNID)).length = stateNIDs.length := by
    rw [← List.toFinset_card_of_nodup hFids,
      ← List.toFinset_card_of_nodup hnd, hset]
  simpa using hlen

/-- When some requested NID has no stored row, the row filter of
`bulkSelectStateBlockNIDs` returns strictly fewer rows than requested. -/
theorem bulkFilter_length_of_missing {s : SnapshotsState}
    {stateNIDs : List Nat} {nid₀ : Nat}
    (htbl : (s.rows.map (·.stateSnapshotNID)).Nodup)
    (hmem : nid₀ ∈ stateNIDs)
    (hmiss : ∀ r ∈ s.rows, r.stateSnapshotNID ≠ nid₀) :
    (s.rows.filter (fun r =>
      stateNIDs.contains r.stateSnapshotNID)).length < stateNIDs.length := by
  have hFids : ((s.rows.filter (fun r =>
      stateNIDs.contains r.stateSnapshotNID)).map
      (·.stateSnapshotNID)).Nodup :=
    ((List.filter_sublist s.rows).map (·.stateSnapshotNID)).nodup htbl
  have hsub : ((s.rows.filter (fun r =>
      stateNIDs.contains r.stateSnapshotNID)).map
      (·.stateSnapshotNID)).toFinset ⊆ stateNIDs.toFinset.erase nid₀ := by
    intro x hx
    rw [List.mem_toFinset, mem_bulkFilter] at hx
    rcases hx with ⟨hxl, r, hrs, hid⟩
    refine Finset.mem_erase.2 ⟨?_, List.mem_toFinset.2 hxl⟩
    intro h
    exact hmiss r hrs (by rw [hid, h])
  have h₁ : (s.rows.filter (fun r =>
      stateNIDs.contains r.stateSnapshotNID)).length =
      ((s.rows.filter (fun r =>
        stateNIDs.contains r.stateSnapshotNID)).map
        (·.stateSnapshotNID)).toFinset.card := by
    rw [List.toFinset_card_of_nodup hFids, List.length_map]
  have h₂ := Finset.card_le_card hsub
  have h₃ : (stateNIDs.toFinset.erase nid₀).card =
      stateNIDs.toFinset.card - 1 :=
    Finset.card_erase_of_mem (List.mem_toFinset.2 hmem)
  have h₄ : 0 < stateNIDs.toFinset.card :=
    Finset.card_pos.2 ⟨nid₀, List.mem_toFinset.2 hmem⟩
  have h₅ : stateNIDs.toFinset.card ≤ stateNIDs.length :=
    stateNIDs.toFinset_card_le
  omega

/-- C7 counterexample: in a snapshot table storing the single snapshot NID 1,
requesting the list `[1, 1]` fails — the SQL `IN` clause matches the one
stored row once, so the row count 1 differs from the request count 2 — even
though every requested snapshot NID is stored; the claim's "error iff some
requested NID is missing" is false for requests with duplicates. -/
theorem bulkSelectStateBlockNIDs_duplicate_counterexample :
    bulkSelectStateBlockNIDs ⟨2, [⟨1, 0, [5]⟩]⟩ [1, 1] =
      .error "storage: state NIDs missing from the database" ∧
    ∀ nid ∈ [1, 1], ∃ r ∈ ([⟨1, 0, [5]⟩] : List StateSnapshotRow),
      r.stateSnapshotNID = nid := by
  constructor
  · rfl
  · decide

/-- C7 amended: for a request list of pairwise distinct snapshot NIDs
against a table with unique snapshot NIDs, `bulkSelectStateBlockNIDs` errors
exactly when some requested NID has no stored snapshot; on success it
returns exactly one entry per requested NID, ordered ascending by snapshot
NID, each carrying that snapshot's stored block-NID list, covering every
requested NID. -/
theorem bulkSelectStateBlockNIDs_spec (s : SnapshotsState)
    (stateNIDs : List Nat) (hnd : stateNIDs.Nodup)
    (htbl : (s.rows.map (·.stateSnapshotNID)).Nodup) :
    ((∃ e, bulkSelectStateBlockNIDs s stateNIDs = .error e) ↔
      ∃ nid ∈ stateNIDs, ∀ r ∈ s.rows, r.stateSnapshotNID ≠ nid) ∧
    ∀ res, bulkSelectStateBlockNIDs s stateNIDs = .ok res →
      res.length = stateNIDs.length ∧
      res.Pairwise (fun a b => a.stateSnapshotNID ≤ b.stateSnapshotNID) ∧
      (∀ e ∈ res, e.stateSnapshotNID ∈ stateNIDs ∧
        ∃ r ∈ s.rows, r.stateSnapshotNID = e.stateSnapshotNID ∧
          r.stateBlockNIDs = e.stateBlockNIDs) ∧
      (∀ nid ∈ stateNIDs, ∃ e ∈ res, e.stateSnapshotNID = nid) := by
  have hlen : (List.insertionSort snapLe (s.rows.filter (fun r =>
      stateNIDs.contains r.stateSnapshotNID))).length =
      (s.rows.filter (fun r =>
        stateNIDs.contains r.stateSnapshotNID)).length :=
    (List.perm_insertionSort snapLe _).length_eq
  constructor
  · constructor
    · rintro ⟨e, he⟩
      by_contra hno
      push_neg at hno
      have heq := bulkFilter_length_of_all_present hnd htbl hno
      simp only [bulkSelectStateBlockNIDs] at he
      rw [if_pos (by rw [hlen, heq])] at he
      exact Except.noConfusion he
    · rintro ⟨nid₀, hmem, hmiss⟩
      have hlt := bulkFilter_length_of_missing htbl hmem hmiss
      refine ⟨"storage: state NIDs missing from the database", ?_⟩
      simp only [bulkSelectStateBlockNIDs]
      rw [if_neg (by omega)]
  · intro res hres
    simp only [bulkSelectStateBlockNIDs] at hres
    by_cases hc : (List.insertionSort snapLe (s.rows.filter (fun r =>
        stateNIDs.contains r.stateSnapshotNID))).length = stateNIDs.length
    · rw [if_pos hc] at hres
      injection hres with hres
      subst hres
      have hall : ∀ nid ∈ stateNIDs, ∃ r ∈ s.rows,
          r.stateSnapshotNID = nid := by
        intro nid hnid
        by_contra hno
        push_neg at hno
        have := bulkFilter_length_of_missing htbl hnid hno
        omega
      refine ⟨by rw [List.length_map, hc], ?_, ?_, ?_⟩
      · exact (List.sorted_insertionSort snapLe _).map _ (fun a b h => h)
      · intro e he
        rcases List.mem_map.1 he with ⟨r, hr, hre⟩
        rcases List.mem_filter.1 ((List.mem_insertionSort snapLe).1 hr)
          with ⟨hrs, hcont⟩
        subst hre
        exact ⟨by simpa [List.contains] using hcont, r, hrs, rfl, rfl⟩
      · intro nid hnid
        rcases hall nid hnid with ⟨r, hrs, hrid⟩
        have hrF : r ∈ s.rows.filter (fun r =>
            stateNIDs.contains r.stateSnapshotNID) := by
          refine List.mem_filter.2 ⟨hrs, ?_⟩
          rw [hrid]
          simpa [List.contains] using hnid
        exact ⟨{ stateSnapshotNID := r.stateSnapshotNID
                 stateBlockNIDs := r.stateBlockNIDs },
          List.mem_map.2 ⟨r, (List.mem_insertionSort snapLe).2 hrF, rfl⟩, hrid⟩
    · rw [if_neg hc] at hres
      exact Except.noConfusion hres

/-- Witness for C7 (amended) at a table storing snapshots 1 and 2 and the
request `[2, 1]`. -/
theorem bulkSelectStateBlockNIDs_spec_witness :
    ((∃ e,
        bulkSelectStateBlockNIDs ⟨3, [⟨1, 0, [5]⟩, ⟨2, 0, [6, 7]⟩]⟩ [2, 1] =
          .error e) ↔
      ∃ nid ∈ [2, 1], ∀ r ∈ ([⟨1, 0, [5]⟩, ⟨2, 0, [6, 7]⟩] :
          List StateSnapshotRow), r.stateSnapshotNID ≠ nid) ∧
    ∀ res, bulkSelectStateBlockNIDs ⟨3, [⟨1, 0, [5]⟩, ⟨2, 0, [6, 7]⟩]⟩ [2, 1] =
        .ok res →
      res.length = ([2, 1] : List Nat).length ∧
      res.Pairwise (fun a b => a.stateSnapshotNID ≤ b.stateSnapshotNID) ∧
      (∀ e ∈ res, e.stateSnapshotNID ∈ ([2, 1] : List Nat) ∧
        ∃ r ∈ ([⟨1, 0, [5]⟩, ⟨2, 0, [6, 7]⟩] : List StateSnapshotRow),
          r.stateSnapshotNID = e.stateSnapshotNID ∧
          r.stateBlockNIDs = e.stateBlockNIDs) ∧
      (∀ nid ∈ ([2, 1] : List Nat), ∃ e ∈ res,
        e.stateSnapshotNID = nid) :=
  bulkSelectStateBlockNIDs_spec ⟨3, [⟨1, 0, [5]⟩, ⟨2, 0, [6, 7]⟩]⟩ [2, 1]
    (by decide) (by decide)

end Dendrite
